import Mathlib

/-!
Verification development for the kubediag (kube-diagnoser) repository.

The Go sources are shallowly embedded below: each Go function used by a
property is translated into an executable Lean definition over explicit
data types; stateful code (Kubernetes client calls, channel sends, map
stores) is modelled by explicit state passing and effect lists.  Machine
integers are modelled by `Nat`/`Int` with explicit `% 2 ^ 32` where the Go
code relies on overflow (the FNV-1a hash).  Fallible code returns `Option`.

Section 1 holds the definitions (translated from the source), section 2
the theorems about them.
-/

/-! ### 1. Definitions -/

/-! #### 1.1 Core API types (`api/v1`, `corev1`)

Only the fields read by the embedded functions are modelled.  Go string
constants whose defining file is not part of the source snapshot (the
`Abnormal` phase constants) are given their spec names; the proofs depend
only on the constants being pairwise distinct strings. -/

/-- Model of `corev1.PodSpec`, restricted to the `NodeName` field. -/
structure PodSpec where
  NodeName : String
  deriving DecidableEq

/-- Model of `corev1.Pod`: object metadata plus the spec fields used. -/
structure Pod where
  Name : String
  Namespace : String
  Spec : PodSpec
  deriving DecidableEq

/-- Model of `diagnosisv1.PodReference` (a namespaced name). -/
structure PodReference where
  Namespace : String
  Name : String
  deriving DecidableEq

/-- Model of `diagnosisv1.AbnormalSpec`, restricted to the fields read by
the reconciler and the alertmanager (`Source`, `NodeName`, `PodReference`). -/
structure AbnormalSpec where
  Source : String
  NodeName : String
  PodReference : Option PodReference
  deriving DecidableEq

/-- Model of `diagnosisv1.AbnormalCondition`.  The Go field `Type` is named
`ConditionType` here because `Type` is reserved in Lean. -/
structure AbnormalCondition where
  ConditionType : String
  Status : String
  deriving DecidableEq

/-- Model of `diagnosisv1.AbnormalStatus`: the phase, the condition list and
the start time (`metav1.Time` is modelled as an integer instant). -/
structure AbnormalStatus where
  Phase : String
  Conditions : List AbnormalCondition
  StartTime : Int
  deriving DecidableEq

/-- Model of `diagnosisv1.Abnormal`: object metadata plus spec and status. -/
structure Abnormal where
  Name : String
  Namespace : String
  Spec : AbnormalSpec
  Status : AbnormalStatus
  deriving DecidableEq

/-- Modelled from the spec: the string value of the phase constant
`diagnosisv1.InformationCollecting` (the file defining the `AbnormalPhase`
constants is not in the source snapshot; only distinctness of the values
matters below). -/
def InformationCollecting : String := "InformationCollecting"

/-- Modelled from the spec: value of `diagnosisv1.AbnormalDiagnosing`. -/
def AbnormalDiagnosing : String := "Diagnosing"

/-- Modelled from the spec: value of `diagnosisv1.AbnormalRecovering`. -/
def AbnormalRecovering : String := "Recovering"

/-- Modelled from the spec: value of `diagnosisv1.AbnormalSucceeded`. -/
def AbnormalSucceeded : String := "Succeeded"

/-- Modelled from the spec: value of `diagnosisv1.AbnormalFailed`. -/
def AbnormalFailed : String := "Failed"

/-- Modelled from the spec: value of `diagnosisv1.AbnormalUnknown`. -/
def AbnormalUnknown : String := "Unknown"

/-- Modelled from the spec: value of the condition type constant
`diagnosisv1.InformationCollected`. -/
def InformationCollected : String := "InformationCollected"

/-- Modelled from the spec: value of `diagnosisv1.CustomSource` (the
`AbnormalSource` constants are not in the source snapshot). -/
def CustomSource : String := "Custom"

/-! #### 1.2 Condition lookup (`pkg/util`)

`GetAbnormalCondition` is not in the source snapshot; its `Diagnosis` twin
`GetDiagnosisConditionFromList` is (src/unnamed/part_002), and the
controller uses the two interchangeably.  The embedding follows that twin:
scan the list, return the index and the first condition of the requested
type, or nothing (Go: `-1, nil`). -/

/-- Embedding of `GetDiagnosisConditionFromList` / `GetAbnormalConditionFromList`:
first condition of the given type together with its index. -/
def GetAbnormalConditionFromList : List AbnormalCondition → String → Option (Nat × AbnormalCondition)
  | [], _ => none
  | c :: rest, t =>
    if c.ConditionType = t then some (0, c)
    else (GetAbnormalConditionFromList rest t).map (fun p => (p.1 + 1, p.2))

/-- Embedding of `util.GetAbnormalCondition` (status-level wrapper). -/
def GetAbnormalCondition (st : AbnormalStatus) (t : String) : Option (Nat × AbnormalCondition) :=
  GetAbnormalConditionFromList st.Conditions t

/-! #### 1.3 Bounded-queue enqueue (`pkg/util`, src/unnamed/part_002)

A Go channel is modelled by its capacity and buffered contents.  The Go
functions `QueueDiagnosis`, `QueueTask`, `QueueOperationSet`, `QueueEvent`
(and the controller's `QueueAbnormal`) are textually identical up to the
element type, so a single polymorphic embedding covers them.  The `select`
statement's random choice when both the `ctx.Done()` case and the send
case are ready is modelled by the extra `pick` argument; it is irrelevant
whenever the context is not cancelled. -/

/-- Model of a buffered Go channel: capacity and current buffer contents. -/
structure Channel (α : Type) where
  capacity : Nat
  buffer : List α
  deriving DecidableEq

/-- Embedding of `util.QueueDiagnosis` (and its textual twins `QueueAbnormal`,
`QueueTask`, `QueueOperationSet`, `QueueEvent`): non-blocking send via
`select`.  Returns the new channel state and `some` error message when the
`default` branch fires (the send would block). -/
def QueueDiagnosis {α : Type} (ctxDone : Bool) (pick : Bool) (ch : Channel α) (x : α) :
    Channel α × Option String :=
  if ctxDone then
    -- The ctx.Done() case is ready; if the send is also ready the runtime
    -- picks one of the two uniformly (modelled by pick); either way the
    -- function returns nil.
    if ch.buffer.length < ch.capacity && pick then
      ({ ch with buffer := ch.buffer ++ [x] }, none)
    else (ch, none)
  else if ch.buffer.length < ch.capacity then
    ({ ch with buffer := ch.buffer ++ [x] }, none)
  else (ch, some "channel is blocked")

/-! #### 1.4 Abnormal reconciler (`pkg/controllers/abnormal_controller.go`)

`Reconcile` is embedded as a pure function from the fetched `Abnormal` to
the list of side effects it performs: spec updates (`r.Update`) and
enqueue attempts (`util.QueueAbnormal`).  The pod store is an oracle from
namespace and name to an optional pod (`none` covers both a missing pod
and a failed GET: the code returns without further effects in either
case).  `updateOk` tells whether the `r.Update` call succeeds; on failure
the code returns before enqueueing. -/

/-- The four work channels owned by `AbnormalReconciler`. -/
inductive ChannelName where
  | sourceManager
  | informationManager
  | diagnoserChain
  | recovererChain
  deriving DecidableEq

/-- One observable side effect of a reconcile call: a spec update pushed to
the API server, or an enqueue attempt onto one of the four channels. -/
inductive AbnormalEffect where
  | update (a : Abnormal)
  | enqueue (c : ChannelName) (a : Abnormal)
  deriving DecidableEq

/-- Embedding of `AbnormalReconciler.Reconcile` (the body after the fetch of
the `Abnormal` succeeded), as the list of effects it performs in order. -/
def Reconcile (mode : String) (podStore : String → String → Option Pod)
    (updateOk : Bool) (a : Abnormal) : List AbnormalEffect :=
  if mode = "master" then
    if a.Status.Phase = "" then
      if a.Spec.NodeName = "" then
        match a.Spec.PodReference with
        | none => []  -- "nodeName and podReference are both empty": ignored
        | some pr =>
          match podStore pr.Namespace pr.Name with
          | none => []  -- pod fetch failed: return without effects
          | some pod =>
            let bound : Abnormal :=
              { a with Spec := { a.Spec with NodeName := pod.Spec.NodeName } }
            if updateOk then
              [AbnormalEffect.update bound,
               AbnormalEffect.enqueue ChannelName.sourceManager bound]
            else [AbnormalEffect.update bound]
      else [AbnormalEffect.enqueue ChannelName.sourceManager a]
    else []
  else if mode = "agent" then
    if a.Status.Phase = InformationCollecting then
      match GetAbnormalCondition a.Status InformationCollected with
      | some _ => []  -- ignored: information already collected
      | none => [AbnormalEffect.enqueue ChannelName.informationManager a]
    else if a.Status.Phase = AbnormalDiagnosing then
      [AbnormalEffect.enqueue ChannelName.diagnoserChain a]
    else if a.Status.Phase = AbnormalRecovering then
      [AbnormalEffect.enqueue ChannelName.recovererChain a]
    else []  -- Succeeded, Failed, Unknown and any other phase: log only
  else []

/-! #### 1.5 Node-affinity filter (`pkg/util`, src/unnamed/part_002) -/

/-- Model of `diagnosisv1.TaskSpec`, restricted to `NodeName`. -/
structure TaskSpec where
  NodeName : String
  deriving DecidableEq

/-- Model of `diagnosisv1.Task` (named `DiagTask` because `Task` is taken by
the Lean core library). -/
structure DiagTask where
  Name : String
  Spec : TaskSpec
  deriving DecidableEq

/-- Embedding of `util.IsTaskNodeNameMatched`. -/
def IsTaskNodeNameMatched (task : DiagTask) (nodeName : String) : Bool :=
  task.Spec.NodeName == nodeName

/-- Embedding of `util.RetrieveTasksOnNode`: the loop appends, in input
order, exactly the tasks whose spec node name equals the argument. -/
def RetrieveTasksOnNode (tasks : List DiagTask) (nodeName : String) : List DiagTask :=
  match tasks with
  | [] => []
  | task :: rest =>
    if task.Spec.NodeName = nodeName then task :: RetrieveTasksOnNode rest nodeName
    else RetrieveTasksOnNode rest nodeName

/-! #### 1.6 Sorted abnormal list (`pkg/types/sortedabnormallist.go`)

Go indexing `al[i]` panics when `i` is negative or at least `len(al)`; the
panic is modelled by `none`.  Indices are `Int` as in Go.  `metav1.Time.Before`
is strict comparison of instants. -/

/-- Go slice indexing with an `int` index: `none` models the out-of-range
panic. -/
def goIndex {α : Type} (l : List α) (i : Int) : Option α :=
  if i < 0 then none else l.get? i.toNat

/-- Embedding of `SortedAbnormalListByStartTime.Less`: the guard returns
`false` when `i > len(al)` or `j > len(al)`; otherwise both elements are
accessed and their start times compared (`none` = index panic). -/
def SortedAbnormalListLess (al : List Abnormal) (i j : Int) : Option Bool :=
  if i > al.length ∨ j > al.length then some false
  else
    match goIndex al i, goIndex al j with
    | some x, some y => some (decide (x.Status.StartTime < y.Status.StartTime))
    | _, _ => none

/-- A closed sample abnormal used by concrete evaluations below. -/
def sampleAbnormal : Abnormal :=
  { Name := "a", Namespace := "default",
    Spec := { Source := "", NodeName := "", PodReference := none },
    Status := { Phase := "", Conditions := [], StartTime := 0 } }

/-! #### 1.7 Association lists

Go maps are modelled by association lists; `updateAssoc` is Go map
assignment (replace the binding if the key is present, append otherwise)
and `lookupAssoc` is Go map lookup. -/

/-- Go map lookup on an association list. -/
def lookupAssoc {κ β : Type} [DecidableEq κ] : List (κ × β) → κ → Option β
  | [], _ => none
  | (k, v) :: rest, key => if k = key then some v else lookupAssoc rest key

/-- Go map assignment on an association list. -/
def updateAssoc {κ β : Type} [DecidableEq κ] : List (κ × β) → κ → β → List (κ × β)
  | [], key, val => [(key, val)]
  | (k, v) :: rest, key, val =>
    if k = key then (key, val) :: rest else (k, v) :: updateAssoc rest key val

/-! #### 1.8 Alertmanager handler (`pkg/alertmanager/alertmanager.go`)

The POST branch of `alertmanager.Handler`, after the request body has been
unmarshalled into a list of alerts, is embedded as a fold over the alerts.
An alert is modelled by the three observations the handler makes of it:
its name (the `alertname` label), its fingerprint (a `uint64`) and whether
`Resolved()` holds at handling time.  `time.Now()` is modelled by a single
instant `now` for the whole request, and the Kubernetes `Create` call by
an oracle from the created record's name to an outcome. -/

/-- Model of a prometheus alert as observed by the handler. -/
structure Alert where
  Name : String
  Fingerprint : Nat
  Resolved : Bool
  deriving DecidableEq

/-- Lower-case hexadecimal digit. -/
def hexDigit (n : Nat) : Char :=
  if n < 10 then Char.ofNat (48 + n) else Char.ofNat (87 + n)

/-- Embedding of `model.Fingerprint.String()`: the fingerprint printed as a
16-digit zero-padded lower-case hexadecimal string (`%016x`). -/
def fingerprintString (fp : Nat) : String :=
  String.mk ((List.range 16).reverse.map (fun i => hexDigit (fp / 16 ^ i % 16)))

/-- Embedding of `strings.ToLower` restricted to ASCII (character-wise
lowering; Go lowers rune-wise, which agrees on ASCII alert names). -/
def stringsToLower (s : String) : String :=
  String.mk (s.data.map Char.toLower)

/-- Modelled from the spec: the constant
`util.PrometheusAlertGeneratedAbnormalPrefix` is not in the source
snapshot; the spec names the convention `prometheus-alert.<name>.<fp>`,
fixing its value to "prometheus-alert". -/
def PrometheusAlertGeneratedAbnormalPrefixValue : String := "prometheus-alert"

/-- Embedding of `util.DefautlNamespace` (src/unnamed/part_002). -/
def DefautlNamespace : String := "kubediag"

/-- State carried by the alertmanager across alerts: the repeat interval
and the map from fingerprint to the last firing instant. -/
structure AlertmanagerState where
  repeatInterval : Int
  firingAlertSet : List (Nat × Int)
  deriving DecidableEq

/-- Outcome of the Kubernetes `Create` call for an abnormal. -/
inductive CreateResult where
  | ok
  | alreadyExists
  | otherError
  deriving DecidableEq

/-- Embedding of one iteration of the alert loop in `alertmanager.Handler`:
returns the new state, the abnormal whose creation was attempted (if any),
and whether the loop continues (`false` models the early `return` on a
create error that is not AlreadyExists). -/
def handleAlert (create : String → CreateResult) (now : Int)
    (st : AlertmanagerState) (alert : Alert) :
    AlertmanagerState × Option Abnormal × Bool :=
  -- Skip if the alert is resolved.
  if alert.Resolved then (st, none, true)
  -- Skip alerts if the repeat interval has not been passed.
  else if (match lookupAssoc st.firingAlertSet alert.Fingerprint with
           | some lastFiring => decide (now - st.repeatInterval < lastFiring)
           | none => false) then (st, none, true)
  else
    let name := PrometheusAlertGeneratedAbnormalPrefixValue ++ "." ++
      stringsToLower alert.Name ++ "." ++
      String.mk ((fingerprintString alert.Fingerprint).data.take 7)
    let abnormal : Abnormal :=
      { Name := name, Namespace := DefautlNamespace,
        Spec := { Source := CustomSource, NodeName := "my-node", PodReference := none },
        Status := { Phase := "", Conditions := [], StartTime := 0 } }
    match create name with
    | CreateResult.otherError => (st, some abnormal, false)
    | _ =>
      ({ st with firingAlertSet := updateAssoc st.firingAlertSet alert.Fingerprint now },
       some abnormal, true)

/-- Embedding of the whole alert loop: fold `handleAlert` over the request's
alerts, stopping early when an iteration reports `false`.  Returns the
final state, the list of abnormals whose creation was attempted, and
whether the loop ran to completion. -/
def handleAlerts (create : String → CreateResult) (now : Int) :
    AlertmanagerState → List Alert → AlertmanagerState × List Abnormal × Bool
  | st, [] => (st, [], true)
  | st, alert :: rest =>
    match handleAlert create now st alert with
    | (st', creation, true) =>
      let r := handleAlerts create now st' rest
      (r.1, creation.toList ++ r.2.1, r.2.2)
    | (st', creation, false) => (st', creation.toList, false)

/-! #### 1.9 Feature gates (`pkg/features`, src/unnamed/part_000)

The pair of atomically stored maps of `kubeDiagnoserFeatureGate` is
modelled by a pair of association lists; `SetFromMap` returns the state
that is observable after the call (the receiver's maps are only stored
back when the whole feature map validated, so on error the old state is
returned) together with the optional error. -/

/-- Model of `featuregate.FeatureSpec` (fields read by this package). -/
structure FeatureSpec where
  Default : Bool
  LockToDefault : Bool
  PreRelease : String
  deriving DecidableEq

/-- Model of the two maps held by `kubeDiagnoserFeatureGate`. -/
structure FeatureGateState where
  known : List (String × FeatureSpec)
  enabled : List (String × Bool)
  deriving DecidableEq

/-- Embedding of `defaultKubeDiagnoserFeatureGates`. -/
def defaultKubeDiagnoserFeatureGates : List (String × FeatureSpec) :=
  [("Alertmanager", { Default := true, LockToDefault := false, PreRelease := "ALPHA" }),
   ("Eventer", { Default := false, LockToDefault := false, PreRelease := "ALPHA" }),
   ("ClusterHealthEvaluator", { Default := true, LockToDefault := false, PreRelease := "ALPHA" }),
   ("PodCollector", { Default := true, LockToDefault := false, PreRelease := "ALPHA" }),
   ("ContainerCollector", { Default := true, LockToDefault := false, PreRelease := "ALPHA" }),
   ("ProcessCollector", { Default := true, LockToDefault := false, PreRelease := "ALPHA" }),
   ("FileStatusCollector", { Default := true, LockToDefault := false, PreRelease := "ALPHA" }),
   ("SystemdCollector", { Default := true, LockToDefault := false, PreRelease := "ALPHA" }),
   ("PodDiskUsageDiagnoser", { Default := true, LockToDefault := false, PreRelease := "ALPHA" }),
   ("TerminatingPodDiagnoser", { Default := true, LockToDefault := false, PreRelease := "ALPHA" }),
   ("SignalRecoverer", { Default := true, LockToDefault := false, PreRelease := "ALPHA" })]

/-- Embedding of `NewFeatureGate`: defaults for both maps. -/
def NewFeatureGate : FeatureGateState :=
  { known := defaultKubeDiagnoserFeatureGates,
    enabled := defaultKubeDiagnoserFeatureGates.map (fun p => (p.1, p.2.Default)) }

/-- Embedding of `kubeDiagnoserFeatureGate.Enabled`: the enabled map wins,
then the known default, then `false`. -/
def Enabled (s : FeatureGateState) (key : String) : Bool :=
  match lookupAssoc s.enabled key with
  | some v => v
  | none =>
    match lookupAssoc s.known key with
    | some spec => spec.Default
    | none => false

/-- The per-entry validation test of `SetFromMap`: `true` when the entry is
rejected (unrecognized gate, or a locked gate set away from its default). -/
def badGateEntry (known : List (String × FeatureSpec)) (kv : String × Bool) : Bool :=
  match lookupAssoc known kv.1 with
  | none => true
  | some spec => spec.LockToDefault && (spec.Default != kv.2)

/-- The validation-and-update loop of `SetFromMap` over the feature map's
entries, acting on the copied enabled map. -/
def setFromMapLoop (known : List (String × FeatureSpec)) :
    List (String × Bool) → List (String × Bool) → Except String (List (String × Bool))
  | enabledMap, [] => Except.ok enabledMap
  | enabledMap, (k, v) :: rest =>
    match lookupAssoc known k with
    | none => Except.error ("unrecognized feature gate: " ++ k)
    | some spec =>
      if spec.LockToDefault && (spec.Default != v) then
        Except.error ("cannot set feature gate " ++ k ++ ", feature is locked to its default")
      else setFromMapLoop known (updateAssoc enabledMap k v) rest

/-- Embedding of `kubeDiagnoserFeatureGate.SetFromMap`: on any bad entry the
copies are discarded and the observable state is unchanged; otherwise the
updated enabled map is stored. -/
def SetFromMap (s : FeatureGateState) (featureMap : List (String × Bool)) :
    FeatureGateState × Option String :=
  match setFromMapLoop s.known s.enabled featureMap with
  | Except.error e => (s, some e)
  | Except.ok enabled' => ({ known := s.known, enabled := enabled' }, none)

/-! #### 1.10 Content hash (`pkg/util`, src/unnamed/part_002)

`ComputeHash` spews the template with `SortKeys: true` into an FNV-1a
32-bit hasher and safe-encodes the decimal rendering of the sum.  The
template is modelled as a string-to-string map (an association list); the
`spew` printer with sorted keys is modelled by a canonical rendering of
the list sorted by key (ties broken by value; a Go map has distinct keys,
so the tie-break never fires on real inputs and merely makes the order
total).  UTF-8 bytes are modelled by code points (identical on ASCII). -/

/-- Left brace character (written by code point to keep braces out of
string literals). -/
def lbraceChar : Char := Char.ofNat 123

/-- Right brace character. -/
def rbraceChar : Char := Char.ofNat 125

/-- Key order used to canonicalize a map before printing: by key, ties by
value.  Total, transitive and antisymmetric. -/
def pairKeyOrder (a b : String × String) : Prop :=
  a.1 < b.1 ∨ (a.1 = b.1 ∧ a.2 ≤ b.2)

instance : DecidableRel pairKeyOrder :=
  fun _ _ => inferInstanceAs (Decidable (_ ∨ _))

instance : IsTotal (String × String) pairKeyOrder where
  total a b := by
    rcases lt_trichotomy a.1 b.1 with h | h | h
    · exact Or.inl (Or.inl h)
    · rcases le_total a.2 b.2 with h2 | h2
      · exact Or.inl (Or.inr ⟨h, h2⟩)
      · exact Or.inr (Or.inr ⟨h.symm, h2⟩)
    · exact Or.inr (Or.inl h)

instance : IsTrans (String × String) pairKeyOrder where
  trans a b c hab hbc := by
    rcases hab with h | ⟨he, hv⟩
    · rcases hbc with h' | ⟨he', _⟩
      · exact Or.inl (h.trans h')
      · exact Or.inl (he' ▸ h)
    · rcases hbc with h' | ⟨he', hv'⟩
      · exact Or.inl (he ▸ h')
      · exact Or.inr ⟨he.trans he', hv.trans hv'⟩

instance : IsAntisymm (String × String) pairKeyOrder where
  antisymm a b hab hba := by
    rcases hab with h | ⟨he, hv⟩
    · rcases hba with h' | ⟨he', _⟩
      · exact absurd (h.trans h') (lt_irrefl _)
      · exact absurd h (he' ▸ lt_irrefl _)
    · rcases hba with h' | ⟨he', hv'⟩
      · exact absurd h' (he ▸ lt_irrefl _)
      · exact Prod.ext he (le_antisymm hv hv')

/-- Canonicalization performed by `spew` with `SortKeys: true`: the map's
entries in sorted key order. -/
def spewSortKeys (l : List (String × String)) : List (String × String) :=
  List.insertionSort pairKeyOrder l

/-- One printed map entry, `"key":"value"`. -/
def spewEntry (p : String × String) : List Char :=
  '"' :: p.1.data ++ '"' :: ':' :: '"' :: p.2.data ++ ['"']

/-- Join printed entries with `", "`. -/
def spewJoin : List (List Char) → List Char
  | [] => []
  | [x] => x
  | x :: xs => x ++ ',' :: ' ' :: spewJoin xs

/-- The canonical `%#v` rendering of the template: type name, brace, sorted
entries, brace. -/
def spewPrint (l : List (String × String)) : List Char :=
  "map[string]string".data ++ lbraceChar :: spewJoin ((spewSortKeys l).map spewEntry) ++ [rbraceChar]

/-- Embedding of the FNV-1a 32-bit hash over a byte sequence: offset basis
2166136261; per byte, xor then multiply by 16777619 modulo 2^32. -/
def fnv32a (bytes : List Nat) : Nat :=
  bytes.foldl (fun h b => ((h ^^^ b) * 16777619) % 4294967296) 2166136261

/-- Embedding of `util.AlphaNums`. -/
def AlphaNums : String := "bcdfghjklmnpqrstvwxz2456789"

/-- Embedding of `util.SafeEncodeString`: each character is replaced by
`AlphaNums[int(b) % len(AlphaNums)]`. -/
def SafeEncodeString (s : String) : String :=
  String.mk (s.data.map (fun b => AlphaNums.data.getD (b.toNat % AlphaNums.data.length) 'b'))

/-- Embedding of `util.ComputeHash`: FNV-1a over the canonical spew
rendering, then the decimal sum safe-encoded. -/
def ComputeHash (template : List (String × String)) : String :=
  SafeEncodeString (toString (fnv32a ((spewPrint template).map Char.toNat)))

/-! #### 1.11 Operation context decoding (`pkg/processors`, src/unnamed/part_000)

`DecodeOperationContext` is one call to `json.Unmarshal` into a
`map[string][]byte`.  The relevant behaviour of `json.Unmarshal` is
embedded directly: a recursive-descent parser for a JSON object whose
values are strings holding standard base64 (Go decodes `[]byte` fields
from base64), rejecting empty input ("unexpected end of JSON input"),
junk after the value, and malformed base64.  Restrictions of the
embedding: string escape sequences and non-object top-level values are
rejected (none of the properties below exercise them).  Bytes are `Nat`
(< 256 where it matters); the result map is an association list in the
order the keys are parsed (a Go map has no duplicate keys, and the
theorems below assume distinct keys). -/

/-- The standard base64 alphabet. -/
def b64Alphabet : List Char :=
  "ABCDEFGHIJKLMNOPQRSTUVWXYZabcdefghijklmnopqrstuvwxyz0123456789+/".data

/-- Sextet value to base64 character. -/
def valToChar (v : Nat) : Char := b64Alphabet.getD v 'A'

/-- Base64 character to sextet value; `none` for characters outside the
alphabet (including `=`). -/
def charToVal (c : Char) : Option Nat :=
  let i := b64Alphabet.indexOf c
  if i < 64 then some i else none

/-- Standard base64 encoding of a byte sequence, three bytes to four
characters, with `=` padding. -/
def b64EncodeChunks : List Nat → List Char
  | b0 :: b1 :: b2 :: rest =>
    valToChar (b0 / 4) :: valToChar ((b0 % 4) * 16 + b1 / 16) ::
      valToChar ((b1 % 16) * 4 + b2 / 64) :: valToChar (b2 % 64) :: b64EncodeChunks rest
  | [b0, b1] =>
    [valToChar (b0 / 4), valToChar ((b0 % 4) * 16 + b1 / 16), valToChar ((b1 % 16) * 4), '=']
  | [b0] => [valToChar (b0 / 4), valToChar ((b0 % 4) * 16), '=', '=']
  | [] => []

/-- Standard base64 decoding: four characters to three bytes, `=` padding
only at the end, length must be a multiple of four (Go's
`base64.StdEncoding`, which ignores nonzero trailing bits). -/
def b64DecodeChunks : List Char → Option (List Nat)
  | [] => some []
  | c0 :: c1 :: c2 :: c3 :: rest =>
    match charToVal c0, charToVal c1 with
    | some v0, some v1 =>
      if c2 = '=' then
        if c3 = '=' && rest.isEmpty then some [v0 * 4 + v1 / 16] else none
      else
        match charToVal c2 with
        | some v2 =>
          if c3 = '=' then
            if rest.isEmpty then some [v0 * 4 + v1 / 16, (v1 % 16) * 16 + v2 / 4] else none
          else
            match charToVal c3 with
            | some v3 =>
              match b64DecodeChunks rest with
              | some bs =>
                some ((v0 * 4 + v1 / 16) :: ((v1 % 16) * 16 + v2 / 4) :: ((v2 % 4) * 64 + v3) :: bs)
              | none => none
            | none => none
        | none => none
    | _, _ => none
  | _ => none

/-- JSON whitespace. -/
def isJSONWs (c : Char) : Bool :=
  c = ' ' || c = Char.ofNat 9 || c = Char.ofNat 10 || c = Char.ofNat 13

/-- Drop leading JSON whitespace. -/
def skipWs (s : List Char) : List Char := s.dropWhile isJSONWs

/-- Characters accepted inside a JSON string literal by this embedding: no
control characters, no quote, no backslash (escapes are not modelled). -/
def isSafeStringChar (c : Char) : Bool :=
  (32 ≤ c.toNat) && c ≠ '"' && c ≠ '\\'

/-- Parse the body of a JSON string up to the closing quote. -/
def parseStringBody : List Char → Option (List Char × List Char)
  | [] => none
  | c :: rest =>
    if c = '"' then some ([], rest)
    else if isSafeStringChar c then
      (parseStringBody rest).map (fun p => (c :: p.1, p.2))
    else none

/-- Parse a JSON string literal (opening quote, body, closing quote). -/
def parseJSONString : List Char → Option (List Char × List Char)
  | c :: rest => if c = '"' then parseStringBody rest else none
  | [] => none

/-- Parse the entries of a non-empty JSON object, positioned at the first
key's opening quote; returns the entries (values base64-decoded) and the
input after the closing brace.  The fuel argument bounds the number of
entries and only serves termination. -/
def parseEntriesAux : Nat → List Char → Option (List (String × List Nat) × List Char)
  | 0, _ => none
  | Nat.succ fuel, s =>
    match parseJSONString s with
    | none => none
    | some (key, r1) =>
      match skipWs r1 with
      | [] => none
      | c :: r3 =>
        if c = ':' then
          match parseJSONString (skipWs r3) with
          | none => none
          | some (val, r5) =>
            match b64DecodeChunks val with
            | none => none
            | some bytes =>
              match skipWs r5 with
              | [] => none
              | c2 :: r7 =>
                if c2 = ',' then
                  (parseEntriesAux fuel (skipWs r7)).map
                    (fun p => ((String.mk key, bytes) :: p.1, p.2))
                else if c2 = rbraceChar then some ([(String.mk key, bytes)], r7)
                else none
        else none

/-- Embedding of `processors.DecodeOperationContext`: `json.Unmarshal` of
the body into a string-to-bytes map.  `none` models a returned error; in
particular empty (or all-whitespace) input is an error. -/
def DecodeOperationContext (body : List Char) : Option (List (String × List Nat)) :=
  match skipWs body with
  | [] => none
  | c :: rest =>
    if c = lbraceChar then
      match skipWs rest with
      | [] => none
      | c2 :: rest2 =>
        if c2 = rbraceChar then
          if skipWs rest2 = [] then some [] else none
        else
          match parseEntriesAux (rest.length + 1) (skipWs rest) with
          | none => none
          | some (entries, r) => if skipWs r = [] then some entries else none
    else none

/-- Reference encoder for a context map: the JSON object
`{"k":"<base64 of v>", …}` with no whitespace.  `DecodeOperationContext`
inverts it on well-formed maps. -/
def encodeEntryChars (k : String) (v : List Nat) : List Char :=
  '"' :: k.data ++ '"' :: ':' :: '"' :: b64EncodeChunks v ++ ['"']

/-- Encode the entries joined by commas. -/
def encodeEntriesChars : List (String × List Nat) → List Char
  | [] => []
  | [p] => encodeEntryChars p.1 p.2
  | p :: rest => encodeEntryChars p.1 p.2 ++ ',' :: encodeEntriesChars rest

/-- Encode a whole context map as a JSON object. -/
def encodeCtxChars (m : List (String × List Nat)) : List Char :=
  lbraceChar :: encodeEntriesChars m ++ [rbraceChar]

/-- Well-formedness of a context map for the round-trip: printable keys
without quote or backslash, byte values, distinct keys (a Go map). -/
def WellFormedCtx (m : List (String × List Nat)) : Prop :=
  (∀ p ∈ m, (∀ c ∈ p.1.data, isSafeStringChar c = true) ∧ ∀ b ∈ p.2, b < 256) ∧
    (m.map Prod.fst).Nodup

instance : DecidablePred WellFormedCtx :=
  fun _ => inferInstanceAs (Decidable (_ ∧ _))

/-! ### 2. Theorems -/

/-- C1: Terminal phases are absorbing: a reconcile in agent mode on a record
whose status phase is Succeeded, Failed or Unknown performs no status
mutation and enqueues the record onto no channel (no effects at all). -/
theorem reconcile_agent_terminal_phase_ignored
    (podStore : String → String → Option Pod) (updateOk : Bool) (a : Abnormal)
    (h : a.Status.Phase = AbnormalSucceeded ∨ a.Status.Phase = AbnormalFailed ∨
         a.Status.Phase = AbnormalUnknown) :
    Reconcile "agent" podStore updateOk a = [] := by
  rcases h with h | h | h <;>
    simp [Reconcile, h, AbnormalSucceeded, AbnormalFailed, AbnormalUnknown,
      InformationCollecting, AbnormalDiagnosing, AbnormalRecovering]

/-- Witness for C1 at a concrete record in phase Succeeded. -/
theorem reconcile_agent_terminal_phase_ignored_witness :
    Reconcile "agent" (fun _ _ => none) true
      { sampleAbnormal with Status := { Phase := "Succeeded", Conditions := [], StartTime := 0 } } = [] :=
  reconcile_agent_terminal_phase_ignored _ _ _ (Or.inl rfl)

/-- C2: Node binding in master mode for a record with no phase set: if the
spec node name is empty and a pod reference is present and resolves, the
first effect is an update that sets the record's node name to the pod's
spec node name; if both node name and pod reference are absent, the record
is ignored with no effects. -/
theorem reconcile_master_node_binding
    (podStore : String → String → Option Pod) (updateOk : Bool) (a : Abnormal)
    (hphase : a.Status.Phase = "") (hnode : a.Spec.NodeName = "") :
    (∀ pr pod, a.Spec.PodReference = some pr → podStore pr.Namespace pr.Name = some pod →
      (Reconcile "master" podStore updateOk a).head? =
        some (AbnormalEffect.update
          { a with Spec := { a.Spec with NodeName := pod.Spec.NodeName } })) ∧
    (a.Spec.PodReference = none → Reconcile "master" podStore updateOk a = []) := by
  constructor
  · intro pr pod hpr hpod
    simp [Reconcile, hphase, hnode, hpr, hpod]
    cases updateOk <;> simp
  · intro hpr
    simp [Reconcile, hphase, hnode, hpr]

/-- Witness for C2 at concrete records: one whose pod reference resolves to
a pod on node "n1", and one with neither node name nor pod reference. -/
theorem reconcile_master_node_binding_witness :
    (Reconcile "master"
        (fun ns n => if ns = "d" ∧ n = "p" then
            some { Name := "p", Namespace := "d", Spec := { NodeName := "n1" } }
          else none) true
        { sampleAbnormal with
          Spec := { Source := "", NodeName := "",
                    PodReference := some { Namespace := "d", Name := "p" } } }).head? =
      some (AbnormalEffect.update
        { sampleAbnormal with
          Spec := { Source := "", NodeName := "n1",
                    PodReference := some { Namespace := "d", Name := "p" } } }) ∧
    Reconcile "master" (fun _ _ => none) true sampleAbnormal = [] := by
  constructor
  · exact (reconcile_master_node_binding _ _ _ rfl rfl).1
      { Namespace := "d", Name := "p" }
      { Name := "p", Namespace := "d", Spec := { NodeName := "n1" } } rfl (by decide)
  · exact (reconcile_master_node_binding _ _ _ rfl rfl).2 rfl

/-- C3: Bounded-queue enqueue: when the context is not cancelled,
`QueueDiagnosis` (and its textual twins) returns an error exactly when the
channel buffer is full (the send would block), leaving the channel
unchanged; otherwise the record is appended to the buffer and no error is
returned. -/
theorem queueDiagnosis_blocked_iff {α : Type} (pick : Bool) (ch : Channel α) (x : α) :
    ((QueueDiagnosis false pick ch x).2.isSome ↔ ch.capacity ≤ ch.buffer.length) ∧
    ((QueueDiagnosis false pick ch x).2 = none →
      (QueueDiagnosis false pick ch x).1.buffer = ch.buffer ++ [x]) ∧
    ((QueueDiagnosis false pick ch x).2.isSome → (QueueDiagnosis false pick ch x).1 = ch) := by
  by_cases h : ch.buffer.length < ch.capacity
  · refine ⟨?_, ?_, ?_⟩
    · simp [QueueDiagnosis, h]
    · simp [QueueDiagnosis, h]
    · simp [QueueDiagnosis, h]
  · refine ⟨?_, ?_, ?_⟩
    · simp [QueueDiagnosis, h]
      omega
    · simp [QueueDiagnosis, h]
    · simp [QueueDiagnosis, h]

/-- Witness for C3: a channel of capacity 1 accepts one element, and a full
channel of capacity 0 reports an error. -/
theorem queueDiagnosis_blocked_iff_witness :
    ((QueueDiagnosis false true { capacity := 1, buffer := ([] : List Nat) } 7).2 = none →
      (QueueDiagnosis false true { capacity := 1, buffer := ([] : List Nat) } 7).1.buffer = [] ++ [7]) ∧
    ((QueueDiagnosis false true { capacity := 0, buffer := ([] : List Nat) } 7).2.isSome ↔
      (0 : Nat) ≤ 0) := by
  exact ⟨(queueDiagnosis_blocked_iff true _ 7).2.1,
    (queueDiagnosis_blocked_iff true { capacity := 0, buffer := [] } 7).1⟩

/-- C5: Hash purity: `ComputeHash` is a deterministic function of the
template's contents: two templates holding the same key-value pairs in any
insertion order (permutations of one another) hash to equal strings,
because the entries are sorted before printing. -/
theorem computeHash_perm (l₁ l₂ : List (String × String)) (h : l₁.Perm l₂) :
    ComputeHash l₁ = ComputeHash l₂ := by
  have hsort : List.insertionSort pairKeyOrder l₁ = List.insertionSort pairKeyOrder l₂ :=
    List.eq_of_perm_of_sorted
      (((List.perm_insertionSort pairKeyOrder l₁).trans h).trans
        (List.perm_insertionSort pairKeyOrder l₂).symm)
      (List.sorted_insertionSort pairKeyOrder l₁)
      (List.sorted_insertionSort pairKeyOrder l₂)
  simp [ComputeHash, spewPrint, spewSortKeys, hsort]

/-- Witness for C5: two concrete two-entry maps differing in insertion
order hash equally. -/
theorem computeHash_perm_witness :
    ComputeHash [("b", "2"), ("a", "1")] = ComputeHash [("a", "1"), ("b", "2")] :=
  computeHash_perm _ _ (List.Perm.swap ("a", "1") ("b", "2") [])

/-- C6 counterexample: the claim's parenthetical "`IsTaskNodeNameMatched`
is false when the task's nodeName is empty" fails when the provided node
name is also empty: the function then returns true. -/
theorem isTaskNodeNameMatched_empty_both :
    IsTaskNodeNameMatched { Name := "t", Spec := { NodeName := "" } } "" = true := rfl

/-- C6 (amended): `RetrieveTasksOnNode` returns exactly the tasks whose
spec node name equals the argument, in their original order (it is the
filter by that test), and `IsTaskNodeNameMatched` returns true exactly
when the task's spec node name equals the provided node name; in
particular it is false when the task's node name is empty and the
provided node name is non-empty. -/
theorem retrieveTasksOnNode_spec (tasks : List DiagTask) (N : String) :
    RetrieveTasksOnNode tasks N = tasks.filter (fun t => t.Spec.NodeName == N) ∧
    (∀ t : DiagTask, IsTaskNodeNameMatched t N = true ↔ t.Spec.NodeName = N) ∧
    (∀ t : DiagTask, t.Spec.NodeName = "" → N ≠ "" → IsTaskNodeNameMatched t N = false) := by
  refine ⟨?_, ?_, ?_⟩
  · induction tasks with
    | nil => rfl
    | cons t rest ih =>
      by_cases h : t.Spec.NodeName = N <;>
        simp [RetrieveTasksOnNode, h, ih, List.filter_cons]
  · intro t
    simp [IsTaskNodeNameMatched]
  · intro t h hN
    simp only [IsTaskNodeNameMatched, h, beq_eq_false_iff_ne, ne_eq]
    exact fun hc => hN hc.symm

/-- Witness for C6: a concrete filter run and a concrete empty-node-name
mismatch. -/
theorem retrieveTasksOnNode_spec_witness :
    RetrieveTasksOnNode [{ Name := "t1", Spec := { NodeName := "n1" } },
                         { Name := "t2", Spec := { NodeName := "n2" } }] "n1" =
      [{ Name := "t1", Spec := { NodeName := "n1" } }] ∧
    IsTaskNodeNameMatched { Name := "t", Spec := { NodeName := "" } } "n1" = false := by
  constructor
  · rw [(retrieveTasksOnNode_spec _ "n1").1]
    decide
  · exact (retrieveTasksOnNode_spec [] "n1").2.2 { Name := "t", Spec := { NodeName := "" } }
      rfl (by decide)

/-- C9: the bounds guard of `SortedAbnormalListByStartTime.Less` is off by
one: for a singleton list, index `i = 1 = len(al)` passes the guard
(`1 > 1` is false) and the element access `al[1]` is out of range (Go
panics, modelled by `none`), while `i = 2` is caught and returns false.
This evaluates the embedded comparator at the claim's failing input. -/
theorem sortedAbnormalListLess_index_eq_length_panics :
    SortedAbnormalListLess [sampleAbnormal] 1 0 = none ∧
    SortedAbnormalListLess [sampleAbnormal] 2 0 = some false := by
  constructor
  · rfl
  · rfl

/-- Helper: a resolved alert is skipped by one handler iteration — same
state, no creation, loop continues. -/
theorem handleAlert_of_resolved (create : String → CreateResult) (now : Int)
    (st : AlertmanagerState) (a : Alert) (h : a.Resolved = true) :
    handleAlert create now st a = (st, none, true) := by
  simp [handleAlert, h]

/-- Helper: whenever one handler iteration attempts a creation, the alert
was firing, its fingerprint was not within the repeat interval, and the
created record carries the `prometheus-alert.<name>.<fp>` name. -/
theorem handleAlert_creation_spec (create : String → CreateResult) (now : Int)
    (st : AlertmanagerState) (a : Alert) (ab : Abnormal)
    (h : (handleAlert create now st a).2.1 = some ab) :
    a.Resolved = false ∧
    (∀ t, lookupAssoc st.firingAlertSet a.Fingerprint = some t →
      t ≤ now - st.repeatInterval) ∧
    ab.Name = PrometheusAlertGeneratedAbnormalPrefixValue ++ "." ++
      stringsToLower a.Name ++ "." ++
      String.mk ((fingerprintString a.Fingerprint).data.take 7) := by
  by_cases hres : a.Resolved
  · simp [handleAlert, hres] at h
  · rcases hg : lookupAssoc st.firingAlertSet a.Fingerprint with _ | t
    · refine ⟨by simp [hres], by simp [hg], ?_⟩
      rcases hc : create (PrometheusAlertGeneratedAbnormalPrefixValue ++ "." ++
          stringsToLower a.Name ++ "." ++
          String.mk ((fingerprintString a.Fingerprint).data.take 7)) <;>
        simp [handleAlert, hres, hg, hc] at h <;> simp [← h]
    · by_cases ht : now - st.repeatInterval < t
      · simp [handleAlert, hres, hg, ht] at h
      · refine ⟨by simp [hres], ?_, ?_⟩
        · intro t' ht'
          cases ht'
          omega
        · rcases hc : create (PrometheusAlertGeneratedAbnormalPrefixValue ++ "." ++
              stringsToLower a.Name ++ "." ++
              String.mk ((fingerprintString a.Fingerprint).data.take 7)) <;>
            simp [handleAlert, hres, hg, ht, hc] at h <;> simp [← h]

/-- C10: resolved alerts never produce records: one iteration of the alert
loop on a resolved alert changes no state (its fingerprint's last-firing
time included) and attempts no creation; and any attempted creation came
from a firing alert whose fingerprint had not fired within the repeat
interval. -/
theorem handleAlert_resolved_skipped (create : String → CreateResult) (now : Int)
    (st : AlertmanagerState) (a : Alert) :
    (a.Resolved = true → handleAlert create now st a = (st, none, true)) ∧
    (∀ ab, (handleAlert create now st a).2.1 = some ab →
      a.Resolved = false ∧
      ∀ t, lookupAssoc st.firingAlertSet a.Fingerprint = some t →
        t ≤ now - st.repeatInterval) := by
  refine ⟨handleAlert_of_resolved create now st a, ?_⟩
  intro ab h
  exact ⟨(handleAlert_creation_spec create now st a ab h).1,
    (handleAlert_creation_spec create now st a ab h).2.1⟩

/-- Witness for C10: a concrete resolved alert is skipped, and a concrete
firing alert's attempted creation satisfies the conclusion. -/
theorem handleAlert_resolved_skipped_witness :
    handleAlert (fun _ => CreateResult.ok) 0 { repeatInterval := 10, firingAlertSet := [] }
        { Name := "X", Fingerprint := 5, Resolved := true } =
      ({ repeatInterval := 10, firingAlertSet := [] }, none, true) ∧
    ({ Name := "B", Fingerprint := 1, Resolved := false } : Alert).Resolved = false := by
  constructor
  · exact (handleAlert_resolved_skipped _ _ _ _).1 rfl
  · exact ((handleAlert_resolved_skipped (fun _ => CreateResult.ok) 0
      { repeatInterval := 10, firingAlertSet := [] }
      { Name := "B", Fingerprint := 1, Resolved := false }).2 _ rfl).1

/-- C7: alert-ingest naming: every record whose creation the handler
attempts is named by the `prometheus-alert.<name>.<fp>` convention for
some firing alert of the request: the fixed prefix, a dot, the alert's
name lowercased, a dot, and the first 7 characters of the alert's
fingerprint string. -/
theorem handleAlerts_creation_names (create : String → CreateResult) (now : Int)
    (st : AlertmanagerState) (alerts : List Alert) :
    ∀ ab ∈ (handleAlerts create now st alerts).2.1, ∃ a ∈ alerts,
      a.Resolved = false ∧
      ab.Name = PrometheusAlertGeneratedAbnormalPrefixValue ++ "." ++
        stringsToLower a.Name ++ "." ++
        String.mk ((fingerprintString a.Fingerprint).data.take 7) := by
  induction alerts generalizing st with
  | nil => simp [handleAlerts]
  | cons a rest ih =>
    intro ab hab
    rcases hstep : handleAlert create now st a with ⟨st', creation, cont⟩
    cases cont
    case false =>
      simp only [handleAlerts, hstep] at hab
      rcases creation with _ | created
      · simp at hab
      · simp at hab
        subst hab
        have hspec := handleAlert_creation_spec create now st a ab (by simp [hstep])
        exact ⟨a, by simp, hspec.1, hspec.2.2⟩
    case true =>
      simp only [handleAlerts, hstep] at hab
      rcases creation with _ | created
      · simp at hab
        rcases ih st' ab hab with ⟨a', ha', hprop⟩
        exact ⟨a', by simp [ha'], hprop⟩
      · simp at hab
        rcases hab with hab | hab
        · subst hab
          have hspec := handleAlert_creation_spec create now st a ab (by simp [hstep])
          exact ⟨a, by simp, hspec.1, hspec.2.2⟩
        · rcases ih st' ab hab with ⟨a', ha', hprop⟩
          exact ⟨a', by simp [ha'], hprop⟩

/-- Helper: looking up the key just assigned yields the assigned value. -/
theorem lookupAssoc_updateAssoc_self {κ β : Type} [DecidableEq κ]
    (l : List (κ × β)) (k : κ) (v : β) :
    lookupAssoc (updateAssoc l k v) k = some v := by
  induction l with
  | nil => simp [lookupAssoc, updateAssoc]
  | cons p rest ih =>
    rcases p with ⟨k', v'⟩
    by_cases h : k' = k <;> simp [lookupAssoc, updateAssoc, h, ih]

/-- Helper: assignment to one key leaves lookups of other keys unchanged. -/
theorem lookupAssoc_updateAssoc_ne {κ β : Type} [DecidableEq κ]
    (l : List (κ × β)) (k k' : κ) (v : β) (h : k' ≠ k) :
    lookupAssoc (updateAssoc l k v) k' = lookupAssoc l k' := by
  have h2 : ¬k = k' := fun hc => h hc.symm
  induction l with
  | nil => simp [lookupAssoc, updateAssoc, h2]
  | cons p rest ih =>
    rcases p with ⟨k₀, v₀⟩
    by_cases h0 : k₀ = k
    · subst h0
      simp [lookupAssoc, updateAssoc, h2]
    · by_cases h1 : k₀ = k'
      · subst h1
        simp [lookupAssoc, updateAssoc, h0, h]
      · simp [lookupAssoc, updateAssoc, h0, h1, ih]

/-- Helper: the `SetFromMap` loop fails when some entry is bad. -/
theorem setFromMapLoop_error (known : List (String × FeatureSpec))
    (m : List (String × Bool)) (em : List (String × Bool))
    (h : ∃ kv ∈ m, badGateEntry known kv = true) :
    ∃ e, setFromMapLoop known em m = Except.error e := by
  induction m generalizing em with
  | nil => simp at h
  | cons kv rest ih =>
    rcases kv with ⟨k, v⟩
    rcases hk : lookupAssoc known k with _ | spec
    · exact ⟨"unrecognized feature gate: " ++ k, by simp [setFromMapLoop, hk]⟩
    · by_cases hlock : spec.LockToDefault && (spec.Default != v)
      · exact ⟨"cannot set feature gate " ++ k ++ ", feature is locked to its default",
          by simp [setFromMapLoop, hk, hlock]⟩
      · have hrest : ∃ kv ∈ rest, badGateEntry known kv = true := by
          rcases h with ⟨kv', hkv', hbad⟩
          rcases List.mem_cons.mp hkv' with hkv' | hkv'
          · exfalso
            rw [hkv'] at hbad
            simp [badGateEntry, hk] at hbad
            simp [hbad] at hlock
          · exact ⟨kv', hkv', hbad⟩
        rcases ih (updateAssoc em k v) hrest with ⟨e, he⟩
        exact ⟨e, by simp [setFromMapLoop, hk, hlock, he]⟩

/-- Helper: the `SetFromMap` loop succeeds when every entry is good; the
resulting enabled map takes the listed values (given distinct keys) and is
untouched elsewhere. -/
theorem setFromMapLoop_ok (known : List (String × FeatureSpec))
    (m : List (String × Bool)) (em : List (String × Bool))
    (h : ∀ kv ∈ m, badGateEntry known kv = false) :
    ∃ em', setFromMapLoop known em m = Except.ok em' ∧
      (∀ k, k ∉ m.map Prod.fst → lookupAssoc em' k = lookupAssoc em k) ∧
      ((m.map Prod.fst).Nodup → ∀ kv ∈ m, lookupAssoc em' kv.1 = some kv.2) := by
  induction m generalizing em with
  | nil =>
    exact ⟨em, rfl, fun _ _ => rfl, fun _ kv hkv => absurd hkv (List.not_mem_nil kv)⟩
  | cons kv rest ih =>
    rcases kv with ⟨k, v⟩
    have hkgood : badGateEntry known (k, v) = false := h _ (List.mem_cons_self _ _)
    rcases hk : lookupAssoc known k with _ | spec
    · exfalso
      simp [badGateEntry, hk] at hkgood
    · have hlock : (spec.LockToDefault && (spec.Default != v)) = false := by
        simpa [badGateEntry, hk] using hkgood
      rcases ih (updateAssoc em k v) (fun kv' hkv' => h kv' (List.mem_cons_of_mem _ hkv')) with
        ⟨em', hloop, huntouched, hvalues⟩
      refine ⟨em', ?_, ?_, ?_⟩
      · simp [setFromMapLoop, hk, hlock, hloop]
      · intro k' hk'
        simp only [List.map_cons, List.mem_cons, not_or] at hk'
        rw [huntouched k' hk'.2,
          lookupAssoc_updateAssoc_ne em k k' v hk'.1]
      · intro hnodup kv' hkv'
        simp only [List.map_cons, List.nodup_cons] at hnodup
        rcases List.mem_cons.mp hkv' with hkv' | hkv'
        · subst hkv'
          rw [huntouched k (by simpa using hnodup.1), lookupAssoc_updateAssoc_self]
        · exact hvalues hnodup.2 kv' hkv'

/-- C8: feature-gate mutation atomicity: `SetFromMap` returns an error and
leaves the observable gate state unchanged when the map holds an
unrecognized gate or sets a locked gate away from its default; otherwise
it returns nil and installs a snapshot with the same known map in which
exactly the listed gates take the given values (other gates keep their
previous `Enabled` observation). -/
theorem setFromMap_atomic (s : FeatureGateState) (m : List (String × Bool)) :
    ((∃ kv ∈ m, badGateEntry s.known kv = true) →
      (SetFromMap s m).1 = s ∧ (SetFromMap s m).2.isSome) ∧
    ((∀ kv ∈ m, badGateEntry s.known kv = false) →
      (SetFromMap s m).2 = none ∧ (SetFromMap s m).1.known = s.known ∧
      ((m.map Prod.fst).Nodup → ∀ kv ∈ m, Enabled (SetFromMap s m).1 kv.1 = kv.2) ∧
      (∀ k, k ∉ m.map Prod.fst → Enabled (SetFromMap s m).1 k = Enabled s k)) := by
  constructor
  · intro hbad
    rcases setFromMapLoop_error s.known m s.enabled hbad with ⟨e, he⟩
    simp [SetFromMap, he]
  · intro hgood
    rcases setFromMapLoop_ok s.known m s.enabled hgood with
      ⟨em', hloop, huntouched, hvalues⟩
    refine ⟨by simp [SetFromMap, hloop], by simp [SetFromMap, hloop], ?_, ?_⟩
    · intro hnodup kv hkv
      simp [SetFromMap, hloop, Enabled, hvalues hnodup kv hkv]
    · intro k hk
      simp [SetFromMap, hloop, Enabled, huntouched k hk]

/-- Witness for C8: on the default gate state, setting the known gate
`Eventer` succeeds and flips it, while a map with the unknown gate `Nope`
is rejected with the state unchanged. -/
theorem setFromMap_atomic_witness :
    Enabled (SetFromMap NewFeatureGate [("Eventer", true)]).1 "Eventer" = true ∧
    (SetFromMap NewFeatureGate [("Nope", true)]).1 = NewFeatureGate := by
  constructor
  · exact ((setFromMap_atomic NewFeatureGate [("Eventer", true)]).2 (by decide)).2.2.1
      (by decide) ("Eventer", true) (by decide)
  · exact ((setFromMap_atomic NewFeatureGate [("Nope", true)]).1
      ⟨("Nope", true), by decide, by decide⟩).1

/-- Helper: decoding a base64 character produced from a sextet value
recovers the value. -/
theorem charToVal_valToChar : ∀ v < 64, charToVal (valToChar v) = some v := by decide

/-- Helper: no base64 alphabet character is the padding character. -/
theorem valToChar_ne_padding : ∀ v < 64, valToChar v ≠ '=' := by decide

/-- Helper: base64 decoding inverts base64 encoding on byte sequences. -/
theorem b64_roundtrip : ∀ bs : List Nat, (∀ b ∈ bs, b < 256) →
    b64DecodeChunks (b64EncodeChunks bs) = some bs
  | [], _ => rfl
  | [b0], h => by
    have hb0 : b0 < 256 := h b0 (by simp)
    have e0 := charToVal_valToChar (b0 / 4) (by omega)
    have e1 := charToVal_valToChar ((b0 % 4) * 16) (by omega)
    simp [b64EncodeChunks, b64DecodeChunks, e0, e1]
    omega
  | [b0, b1], h => by
    have hb0 : b0 < 256 := h b0 (by simp)
    have hb1 : b1 < 256 := h b1 (by simp)
    have e0 := charToVal_valToChar (b0 / 4) (by omega)
    have e1 := charToVal_valToChar ((b0 % 4) * 16 + b1 / 16) (by omega)
    have e2 := charToVal_valToChar ((b1 % 16) * 4) (by omega)
    have n2 := valToChar_ne_padding ((b1 % 16) * 4) (by omega)
    simp [b64EncodeChunks, b64DecodeChunks, e0, e1, e2, n2]
    omega
  | b0 :: b1 :: b2 :: rest, h => by
    have hb0 : b0 < 256 := h b0 (by simp)
    have hb1 : b1 < 256 := h b1 (by simp)
    have hb2 : b2 < 256 := h b2 (by simp)
    have e0 := charToVal_valToChar (b0 / 4) (by omega)
    have e1 := charToVal_valToChar ((b0 % 4) * 16 + b1 / 16) (by omega)
    have e2 := charToVal_valToChar ((b1 % 16) * 4 + b2 / 64) (by omega)
    have e3 := charToVal_valToChar (b2 % 64) (by omega)
    have n2 := valToChar_ne_padding ((b1 % 16) * 4 + b2 / 64) (by omega)
    have n3 := valToChar_ne_padding (b2 % 64) (by omega)
    have ih := b64_roundtrip rest (fun b hb => h b (by simp [hb]))
    simp [b64EncodeChunks, b64DecodeChunks, e0, e1, e2, e3, n2, n3, ih]
    omega

/-- Helper: the string-body parser consumes safe characters up to the
closing quote. -/
theorem parseStringBody_encode : ∀ (content rest : List Char),
    (∀ c ∈ content, isSafeStringChar c = true) →
    parseStringBody (content ++ '"' :: rest) = some (content, rest)
  | [], rest, _ => by simp [parseStringBody]
  | c :: cs, rest, h => by
    have hc : isSafeStringChar c = true := h c (by simp)
    have hne : ¬(c = '"') := by
      intro hq
      rw [hq] at hc
      simp [isSafeStringChar] at hc
    have ih := parseStringBody_encode cs rest (fun c' hc' => h c' (by simp [hc']))
    simp [parseStringBody, hne, hc, ih]

/-- Helper: the string parser consumes a quoted safe string. -/
theorem parseJSONString_encode (content rest : List Char)
    (h : ∀ c ∈ content, isSafeStringChar c = true) :
    parseJSONString ('"' :: content ++ '"' :: rest) = some (content, rest) := by
  simp [parseJSONString, parseStringBody_encode content rest h]

/-- Helper: base64 alphabet characters are safe string characters. -/
theorem valToChar_safe : ∀ v < 64, isSafeStringChar (valToChar v) = true := by decide

/-- Helper: every character emitted by the base64 encoder is a safe string
character. -/
theorem b64EncodeChunks_safe : ∀ bs : List Nat, (∀ b ∈ bs, b < 256) →
    ∀ c ∈ b64EncodeChunks bs, isSafeStringChar c = true
  | [], _ => by simp [b64EncodeChunks]
  | [b0], h => by
    have hb0 : b0 < 256 := h b0 (by simp)
    intro c hc
    simp [b64EncodeChunks] at hc
    rcases hc with hc | hc | hc <;> subst hc
    · exact valToChar_safe _ (by omega)
    · exact valToChar_safe _ (by omega)
    · decide
  | [b0, b1], h => by
    have hb0 : b0 < 256 := h b0 (by simp)
    have hb1 : b1 < 256 := h b1 (by simp)
    intro c hc
    simp [b64EncodeChunks] at hc
    rcases hc with hc | hc | hc | hc <;> subst hc
    · exact valToChar_safe _ (by omega)
    · exact valToChar_safe _ (by omega)
    · exact valToChar_safe _ (by omega)
    · decide
  | b0 :: b1 :: b2 :: rest, h => by
    have hb0 : b0 < 256 := h b0 (by simp)
    have hb1 : b1 < 256 := h b1 (by simp)
    have hb2 : b2 < 256 := h b2 (by simp)
    have ih := b64EncodeChunks_safe rest (fun b hb => h b (by simp [hb]))
    intro c hc
    simp [b64EncodeChunks] at hc
    rcases hc with hc | hc | hc | hc | hc
    · exact hc ▸ valToChar_safe _ (by omega)
    · exact hc ▸ valToChar_safe _ (by omega)
    · exact hc ▸ valToChar_safe _ (by omega)
    · exact hc ▸ valToChar_safe _ (by omega)
    · exact ih c hc

/-- Helper: leading non-whitespace is kept by `skipWs`. -/
theorem skipWs_cons (c : Char) (r : List Char) (h : isJSONWs c = false) :
    skipWs (c :: r) = c :: r := by
  simp [skipWs, List.dropWhile_cons, h]

/-- Helper: the entries parser inverts the entries encoder on well-formed
non-empty maps, consuming the closing brace. -/
theorem parseEntriesAux_encode : ∀ (m : List (String × List Nat)) (fuel : Nat),
    m ≠ [] →
    (∀ p ∈ m, (∀ c ∈ p.1.data, isSafeStringChar c = true) ∧ ∀ b ∈ p.2, b < 256) →
    m.length ≤ fuel →
    parseEntriesAux fuel (encodeEntriesChars m ++ [rbraceChar]) = some (m, [])
  | [], _, hne, _, _ => absurd rfl hne
  | [(k, v)], fuel, _, hwf, hlen => by
    rcases fuel with _ | fuel
    · simp at hlen
    · have hk := (hwf (k, v) (by simp)).1
      have hv := (hwf (k, v) (by simp)).2
      have hkey := parseJSONString_encode k.data
        (':' :: '"' :: (b64EncodeChunks v ++ ['"', rbraceChar])) hk
      have hval := parseJSONString_encode (b64EncodeChunks v) [rbraceChar]
        (b64EncodeChunks_safe v hv)
      have hdec := b64_roundtrip v hv
      have hws1 : isJSONWs ':' = false := by decide
      have hws2 : isJSONWs '"' = false := by decide
      have hws3 : isJSONWs rbraceChar = false := by decide
      have hcomma : ¬(rbraceChar = ',') := by decide
      simp only [encodeEntriesChars, encodeEntryChars, List.cons_append,
        List.append_assoc, List.nil_append] at hkey hval ⊢
      simp [parseEntriesAux, hkey, hval, hdec, skipWs_cons, hws1, hws2, hws3, hcomma]
  | (k, v) :: q :: rest, fuel, _, hwf, hlen => by
    rcases fuel with _ | fuel
    · simp at hlen
    · have hk := (hwf (k, v) (by simp)).1
      have hv := (hwf (k, v) (by simp)).2
      have hkey := parseJSONString_encode k.data
        (':' :: '"' :: (b64EncodeChunks v ++ '"' :: ',' ::
          (encodeEntriesChars (q :: rest) ++ [rbraceChar]))) hk
      have hval := parseJSONString_encode (b64EncodeChunks v)
        (',' :: (encodeEntriesChars (q :: rest) ++ [rbraceChar]))
        (b64EncodeChunks_safe v hv)
      have hdec := b64_roundtrip v hv
      have hws1 : isJSONWs ':' = false := by decide
      have hws2 : isJSONWs '"' = false := by decide
      have hws4 : isJSONWs ',' = false := by decide
      have ih := parseEntriesAux_encode (q :: rest) fuel (by simp)
        (fun p hp => hwf p (by simp [hp])) (by simpa using hlen)
      have hhead : skipWs (encodeEntriesChars (q :: rest) ++ [rbraceChar]) =
          encodeEntriesChars (q :: rest) ++ [rbraceChar] := by
        rcases q with ⟨kq, vq⟩
        rcases rest with _ | _ <;>
          simp only [encodeEntriesChars, encodeEntryChars, List.cons_append] <;>
          exact skipWs_cons _ _ (by decide)
      simp only [encodeEntriesChars, encodeEntryChars, List.cons_append,
        List.append_assoc, List.nil_append] at hkey hval ih hhead ⊢
      simp [parseEntriesAux, hkey, hval, hdec, skipWs_cons, hws1, hws2, hws4, hhead, ih]

/-- Helper: the encoded entries are at least as long as the entry list. -/
theorem length_le_encodeEntriesChars : ∀ m : List (String × List Nat),
    m.length ≤ (encodeEntriesChars m).length
  | [] => Nat.le_refl 0
  | [p] => by
    simp [encodeEntriesChars, encodeEntryChars]
  | p :: q :: rest => by
    have ih := length_le_encodeEntriesChars (q :: rest)
    simp only [List.length_cons] at ih ⊢
    simp only [encodeEntriesChars, encodeEntryChars, List.length_append, List.length_cons]
    omega

/-- C4 counterexample: `DecodeOperationContext` on the empty byte sequence
returns an error (`json.Unmarshal` rejects empty input), not an empty map. -/
theorem decodeOperationContext_empty : DecodeOperationContext [] = none := rfl

/-- C4 (amended): decoding an operation context from an empty response body
fails (empty input is not valid JSON), while a well-formed JSON object of
byte-string values — the encoding of any map with printable escape-free
distinct keys and byte values — decodes to the corresponding map without
error (in particular the empty object yields the empty map). -/
theorem decodeOperationContext_spec :
    DecodeOperationContext [] = none ∧
    ∀ m : List (String × List Nat), WellFormedCtx m →
      DecodeOperationContext (encodeCtxChars m) = some m := by
  refine ⟨rfl, ?_⟩
  intro m hwf
  rcases m with _ | ⟨⟨k, v⟩, rest⟩
  · rfl
  · have hlen2 : ((k, v) :: rest).length ≤
        (encodeEntriesChars ((k, v) :: rest) ++ [rbraceChar]).length + 1 := by
      have h := length_le_encodeEntriesChars ((k, v) :: rest)
      simp only [List.length_append, List.length_cons, List.length_nil] at h ⊢
      omega
    have hmain := parseEntriesAux_encode ((k, v) :: rest)
      ((encodeEntriesChars ((k, v) :: rest) ++ [rbraceChar]).length + 1)
      (by simp) hwf.1 hlen2
    obtain ⟨t, ht⟩ : ∃ t, encodeEntriesChars ((k, v) :: rest) = '"' :: t := by
      rcases rest with _ | ⟨q, rest⟩
      · exact ⟨k.data ++ '"' :: ':' :: '"' :: (b64EncodeChunks v ++ ['"']),
          by simp only [encodeEntriesChars, encodeEntryChars, List.cons_append,
            List.append_assoc, List.nil_append]⟩
      · exact ⟨k.data ++ '"' :: ':' :: '"' ::
            (b64EncodeChunks v ++ '"' :: ',' :: encodeEntriesChars (q :: rest)),
          by simp only [encodeEntriesChars, encodeEntryChars, List.cons_append,
            List.append_assoc, List.nil_append]⟩
    have hwsl : isJSONWs lbraceChar = false := by decide
    have hws2 : isJSONWs '"' = false := by decide
    have hq : ¬('"' = rbraceChar) := by decide
    rw [ht] at hmain
    simp only [encodeCtxChars, ht, List.cons_append, List.append_assoc,
      List.nil_append, List.length_append, List.length_cons, List.length_nil] at hmain ⊢
    simp [DecodeOperationContext, skipWs_cons, hwsl, hws2, hq, hmain]
    rfl

/-- Witness for C4: a concrete one-entry map round-trips through the
encoder and `DecodeOperationContext`. -/
theorem decodeOperationContext_spec_witness :
    DecodeOperationContext (encodeCtxChars [("a", [0, 255])]) = some [("a", [0, 255])] :=
  decodeOperationContext_spec.2 [("a", [0, 255])] (by decide)

/-- Witness for C7: the record created for the single firing alert "B" with
fingerprint 1 carries the convention name `prometheus-alert.b.0000000`. -/
theorem handleAlerts_creation_names_witness :
    ∃ a ∈ [({ Name := "B", Fingerprint := 1, Resolved := false } : Alert)],
      a.Resolved = false ∧
      ({ Name := "prometheus-alert.b.0000000", Namespace := "kubediag",
         Spec := { Source := "Custom", NodeName := "my-node", PodReference := none },
         Status := { Phase := "", Conditions := [], StartTime := 0 } } : Abnormal).Name =
        PrometheusAlertGeneratedAbnormalPrefixValue ++ "." ++ stringsToLower a.Name ++ "." ++
        String.mk ((fingerprintString a.Fingerprint).data.take 7) :=
  handleAlerts_creation_names (fun _ => CreateResult.ok) 0
    { repeatInterval := 10, firingAlertSet := [] }
    [{ Name := "B", Fingerprint := 1, Resolved := false }]
    { Name := "prometheus-alert.b.0000000", Namespace := "kubediag",
      Spec := { Source := "Custom", NodeName := "my-node", PodReference := none },
      Status := { Phase := "", Conditions := [], StartTime := 0 } } (by decide)
